import Mathlib

/-!
# Verification of the web-cad-planner drafting core

Shallow embedding of the room-model drafting engine: the data model
(`RoomModel`, entities, hatch assignments), the orthogonal-loop editing
algorithms (`moveWallLine`, `insertVertexOnSegment`), the wall-offset
projector (`offsetOrthoLoop`), the elevation projector
(`edgeFacesDirection`, elevation rectangles), the opening snap engine
(`snapToWall`, `snapDoorToWall`), the hatch-zone builder
(`getHatchZones`, `buildHatchPrimitives`) and the command history reducer
(`historyReducer`).

Modelling conventions:
* JavaScript numbers are modelled as exact rationals (`ℚ`); the claims
  under scrutiny are about exact arithmetic on millimetre coordinates.
* JavaScript `Record<K,V>` objects are modelled as association lists
  (`List (K × V)`), iterated in insertion order like `Object.entries`;
  a record field that is optional and read through `?? {}` is modelled
  as a plain list, with absence as the empty list.
* Referential equality (`===`) on immutable model values is modelled as
  structural (decidable) equality.
* `Math.sqrt` is modelled by `ratSqrt`, exact whenever the radicand is a
  perfect rational square — which is the case for the axis-aligned wall
  segments the data-model invariant guarantees.
-/

/-- 2D point / vector in millimetres (source `Vec2`). -/
structure Vec2 where
  x : ℚ
  y : ℚ
deriving DecidableEq, Repr

/-- Wall attachment of an opening: segment index and parameter `t ∈ [0,1]`
(source `WallAttachment`). -/
structure WallAttachment where
  wallSegIndex : ℕ
  t : ℚ
  offsetFromWallMm : Option ℚ := none
deriving DecidableEq, Repr

/-- Opening discriminant (source `openingType : "door" | "window"`). -/
inductive OpeningType
  | door
  | window
deriving DecidableEq, Repr

/-- Source `WindowStyle` string union. -/
inductive WindowStyle
  | singleLeaf
  | doubleLeaf
  | fixed
  | sliding
deriving DecidableEq, Repr

/-- Source `DoorStyle` string union. -/
inductive DoorStyle
  | singleLeaf
  | doubleLeaf
  | sliding
  | pocket
deriving DecidableEq, Repr

/-- Source `WallOpeningEntity` (kind "wall-opening"). -/
structure WallOpeningEntity where
  id : String
  attach : WallAttachment
  openingType : OpeningType
  widthMm : ℚ
  heightMm : ℚ
  sillHeightMm : Option ℚ := none
  windowStyle : Option WindowStyle := none
  doorStyle : Option DoorStyle := none
deriving DecidableEq, Repr

/-- Source `FixtureEntity` (kind "fixture"). -/
structure FixtureEntity where
  id : String
  attach : WallAttachment
  widthMm : ℚ
  depthMm : ℚ
  rotationDeg : Option ℚ := none
deriving DecidableEq, Repr

/-- Source `Entity = WallOpeningEntity | FixtureEntity` tagged union. -/
inductive Entity
  | wallOpening (e : WallOpeningEntity)
  | fixture (e : FixtureEntity)
deriving DecidableEq, Repr

/-- Source `HatchAssignment`. -/
structure HatchAssignment where
  patternId : String
  color : String
  bgColor : String
  spacingMm : ℚ
  lineWidthMm : ℚ
  angleDeg : ℚ
  opacity : ℚ
  tileLengthMm : Option ℚ := none
  tileWidthMm : Option ℚ := none
deriving DecidableEq, Repr

/-- Source `WallConfig` display overrides. -/
structure WallConfig where
  strokeWidthMm : Option ℚ := none
  defaultWallHatch : Option HatchAssignment := none
deriving DecidableEq, Repr

/-- Source `RoomModel`. `dimText` and `hatches` are optional records the
code always reads through `?? {}` / `?.[k]`; absence is modelled as the
empty association list. -/
structure RoomModel where
  id : String
  innerLoop : List Vec2
  wallThickness : ℚ
  wallHeight : ℚ
  dimText : List (ℕ × String) := []
  entities : List (String × Entity) := []
  hatches : List (String × HatchAssignment) := []
  wallConfig : Option WallConfig := none
deriving DecidableEq, Repr

/-- Source `createDefaultRoom`: a 2500 × 4000 rectangle, 90mm walls,
2400mm height. -/
def createDefaultRoom : RoomModel where
  id := "room-1"
  innerLoop :=
    [ ⟨0, 0⟩, ⟨2500, 0⟩, ⟨2500, 4000⟩, ⟨0, 4000⟩ ]
  wallThickness := 90
  wallHeight := 2400
  entities := []

/-! ## Command history (source `RoomHistoryContext.tsx`) -/

/-- A history command: `do(model) → model` and `undo(model) → model`
(source `Command`; `do` is a Lean keyword, hence `doFn`/`undoFn`). -/
structure Command where
  doFn : RoomModel → RoomModel
  undoFn : RoomModel → RoomModel

/-- Source `HistoryState = {past, present, future}`. -/
structure HistoryState where
  past : List RoomModel
  present : RoomModel
  future : List RoomModel

/-- Source `HistoryAction` union. -/
inductive HistoryAction
  | execute (cmd : Command)
  | undo
  | redo
  | previewSet (updater : RoomModel → RoomModel)
  | commitSnapshot (before after : RoomModel)
  | replacePresent (room : RoomModel)

/-- Source `historyReducer`.  The JS `past[past.length − 1]` /
`past.slice(0, −1)` pair is rendered with `getLast?` / `dropLast`; the
`!state.past.length` guard is the `none` branch of the match.  The
referential no-op guards (`after === before`) are modelled as structural
equality on the immutable model values. -/
def historyReducer (state : HistoryState) (action : HistoryAction) : HistoryState :=
  match action with
  | .execute cmd =>
      let before := state.present
      let after := cmd.doFn before
      if after = before then state
      else ⟨state.past ++ [before], after, []⟩
  | .undo =>
      match state.past.getLast? with
      | none => state
      | some prev => ⟨state.past.dropLast, prev, state.present :: state.future⟩
  | .redo =>
      match state.future with
      | [] => state
      | next :: rest => ⟨state.past ++ [state.present], next, rest⟩
  | .previewSet updater => { state with present := updater state.present }
  | .commitSnapshot before after =>
      if after = before then state
      else ⟨state.past ++ [before], after, []⟩
  | .replacePresent room => { state with present := room }

/-- Dispatch a list of EXECUTE actions in order. -/
def execAll (s : HistoryState) (cmds : List Command) : HistoryState :=
  cmds.foldl (fun st c => historyReducer st (.execute c)) s

/-- Dispatch UNDO `n` times. -/
def undoTimes (s : HistoryState) : ℕ → HistoryState
  | 0 => s
  | n + 1 => undoTimes (historyReducer s .undo) n

/-- Dispatch a list of PREVIEW_SET actions in order (one drag gesture's
interim frames). -/
def previewAll (s : HistoryState) (us : List (RoomModel → RoomModel)) : HistoryState :=
  us.foldl (fun st u => historyReducer st (.previewSet u)) s

/-- The bottom of the history stack: the initial model sits at the head
of `past ++ [present]`. -/
def bottomIs (init : RoomModel) (s : HistoryState) : Prop :=
  (s.past ++ [s.present]).head? = some init

/-! ## Ortho loop editor (source `core/geometry/polygonUtils.ts`) -/

/-- Axis discriminant (source `type Axis = "x" | "y"`). -/
inductive Axis
  | x
  | y
deriving DecidableEq, Repr

/-- The source epsilon `EPS = 1e-3`. -/
def EPS : ℚ := 1 / 1000

/-- Source `nearlyEqual(a, b, eps)`. -/
def nearlyEqual (a b : ℚ) (eps : ℚ := EPS) : Prop :=
  |a - b| ≤ eps

/-- Decide `|a − b| ≤ eps` through the abs-free two-sided bound (the
mathlib `abs` on `ℚ` does not reduce in the kernel). -/
instance (a b eps : ℚ) : Decidable (nearlyEqual a b eps) :=
  decidable_of_iff (-eps ≤ a - b ∧ a - b ≤ eps) abs_le.symm

/-- The coordinate of a vertex selected by an axis (`axis === "x" ? v.x : v.y`). -/
def axisCoord (ax : Axis) (v : Vec2) : ℚ :=
  match ax with
  | .x => v.x
  | .y => v.y

/-- Source `verticesOnLine`: indices of all vertices whose axis coordinate
is within `eps` of `coord`. -/
def verticesOnLine (loop : List Vec2) (ax : Axis) (coord : ℚ) (eps : ℚ := EPS) : List ℕ :=
  (List.range loop.length).filter fun i =>
    decide (nearlyEqual (axisCoord ax (loop.getD i ⟨0, 0⟩)) coord eps)

/-- Source `translateVertices`: copy the loop, then for each listed index
add `(dx, dy)` to that vertex (a `for (const i of idxs)` loop of in-place
array writes, rendered as a fold of `List.set`). -/
def translateVertices (loop : List Vec2) (idxs : List ℕ) (dx dy : ℚ) : List Vec2 :=
  idxs.foldl
    (fun out i =>
      let v := out.getD i ⟨0, 0⟩
      out.set i ⟨v.x + dx, v.y + dy⟩)
    loop

/-- Result record of the loop-editing operations (`{loop, movedVertexIdxs}`). -/
structure MoveResult where
  loop : List Vec2
  movedVertexIdxs : List ℕ
deriving DecidableEq, Repr

/-- Source `moveWallLine`: translate every vertex lying (within `EPS`) on
the wall line `axis = coord` by `delta` along that axis. -/
def moveWallLine (loop : List Vec2) (ax : Axis) (coord delta : ℚ) : MoveResult :=
  let vIdxs := verticesOnLine loop ax coord
  let dx := match ax with | .x => delta | .y => 0
  let dy := match ax with | .y => delta | .x => 0
  ⟨translateVertices loop vIdxs dx dy, vIdxs⟩

/-- Source `insertVertexOnSegment`: split segment `segIndex` at `point`
(assumed on the segment), splicing a new vertex into the loop and
remapping `dimText` (keys below `segIndex` kept, the split segment's own
key dropped, keys above shifted by +1; stray keys `≥` the old segment
count are dropped by the `k < oldSegmentCount` guard). -/
def insertVertexOnSegment (room : RoomModel) (segIndex : ℕ) (point : Vec2) : RoomModel :=
  let loop := room.innerLoop
  let n := loop.length
  if n < 2 then room
  else
    let insertIdx := if segIndex = n - 1 then n else segIndex + 1
    let newLoop := loop.take insertIdx ++ [⟨point.x, point.y⟩] ++ loop.drop insertIdx
    let oldDim := room.dimText
    let newDim : List (ℕ × String) :=
      oldDim.filterMap fun kv =>
        if kv.1 < segIndex then some kv
        else if segIndex < kv.1 ∧ kv.1 < n then some (kv.1 + 1, kv.2)
        else none
    { room with innerLoop := newLoop, dimText := newDim }

/-! ## Wall offset projector (source `editor2D/offsetOrthoLoop.ts`) -/

/-- `Math.sign`. -/
def qsign (q : ℚ) : ℚ :=
  if 0 < q then 1 else if q < 0 then -1 else 0

/-- Source `dir(a, b)`: the edge direction normalised to a unit axis
direction. -/
def edgeAxisDir (a b : Vec2) : Vec2 :=
  let dx := b.x - a.x
  let dy := b.y - a.y
  if |dy| ≤ |dx| then ⟨qsign dx, 0⟩ else ⟨0, qsign dy⟩

/-- Source `outwardNormalCW(d) = (dy, -dx)`: the clockwise-outward normal. -/
def outwardNormalCW (d : Vec2) : Vec2 :=
  ⟨d.y, -d.x⟩

/-- Source `intersectLines`: line p1–p2 meets line p3–p4; near-parallel
(`|den| < 1e-9`) falls back to `p2`. -/
def intersectLines (p1 p2 p3 p4 : Vec2) : Vec2 :=
  let den := (p1.x - p2.x) * (p3.y - p4.y) - (p1.y - p2.y) * (p3.x - p4.x)
  if |den| < 1 / 1000000000 then ⟨p2.x, p2.y⟩
  else
    ⟨((p1.x * p2.y - p1.y * p2.x) * (p3.x - p4.x)
        - (p1.x - p2.x) * (p3.x * p4.y - p3.y * p4.x)) / den,
      ((p1.x * p2.y - p1.y * p2.x) * (p3.y - p4.y)
        - (p1.y - p2.y) * (p3.x * p4.y - p3.y * p4.x)) / den⟩

/-- Source `intersectOffsetLines`: offset line a1–a2 by `n1·t`, line b1–b2
by `n2·t`, and intersect. -/
def intersectOffsetLines (a1 a2 n1 b1 b2 n2 : Vec2) (t : ℚ) : Vec2 :=
  intersectLines
    ⟨a1.x + n1.x * t, a1.y + n1.y * t⟩
    ⟨a2.x + n1.x * t, a2.y + n1.y * t⟩
    ⟨b1.x + n2.x * t, b1.y + n2.y * t⟩
    ⟨b2.x + n2.x * t, b2.y + n2.y * t⟩

/-- Source `offsetOrthoLoop`: each outer vertex is the intersection of the
two adjacent inner edges' lines offset outward by `t` along their
clockwise-outward normals. -/
def offsetOrthoLoop (loop : List Vec2) (t : ℚ) : List Vec2 :=
  let n := loop.length
  (List.range n).map fun i =>
    let prev := loop.getD ((i + n - 1) % n) ⟨0, 0⟩
    let curr := loop.getD i ⟨0, 0⟩
    let next := loop.getD ((i + 1) % n) ⟨0, 0⟩
    let d1 := edgeAxisDir prev curr
    let d2 := edgeAxisDir curr next
    let n1 := outwardNormalCW d1
    let n2 := outwardNormalCW d2
    intersectOffsetLines prev curr n1 curr next n2 t

/-! ## Elevation projector (source `core/projection/deriveDraftScene.ts`,
mirrored in `core/geometry/elevationUtils.ts`) -/

/-- The four elevation directions (source `Exclude<ViewKind, "plan">`). -/
inductive ElevView
  | north
  | south
  | east
  | west
deriving DecidableEq, Repr

/-- The full view discriminant (source `ViewKind`). -/
inductive ViewKind
  | plan
  | north
  | south
  | east
  | west
deriving DecidableEq, Repr

/-- `view === "north" || view === "south"`. -/
def ElevView.isNS : ElevView → Bool
  | .north => true
  | .south => true
  | _ => false

/-- Source `edgeFacesDirection`: a horizontal edge faces north when it
runs toward +X and south toward −X; a vertical edge faces east toward +Y
and west toward −Y (CW loop, Y-down screen coordinates). -/
def edgeFacesDirection (loop : List Vec2) (edgeIdx : ℕ) (dir : ElevView) : Bool :=
  let a := loop.getD edgeIdx ⟨0, 0⟩
  let b := loop.getD ((edgeIdx + 1) % loop.length) ⟨0, 0⟩
  let dx := b.x - a.x
  let dy := b.y - a.y
  let isH := decide (|dy| < |dx|)
  match dir with
  | .north => isH && decide (0 < dx)
  | .south => isH && decide (dx < 0)
  | .east => !isH && decide (0 < dy)
  | .west => !isH && decide (dy < 0)

/-- Minimum of the selected coordinate over the loop (the source's
`Infinity`-seeded `Math.min` fold; the empty loop, unrealizable for a
room, is modelled as 0). -/
def minLoopCoord (loop : List Vec2) (isNS : Bool) : ℚ :=
  match loop with
  | [] => 0
  | p :: rest =>
      rest.foldl (fun m q => min m (if isNS then q.x else q.y))
        (if isNS then p.x else p.y)

/-! ## Opening placement & snap engine (sources
`core/entities/windowGeometry.ts` and `core/entities/doorGeometry.ts`) -/

/-- Source `segEndpoints`: endpoints of segment `segIdx` of the inner
loop (wrap-around). -/
def segEndpoints (room : RoomModel) (segIdx : ℕ) : Vec2 × Vec2 :=
  let loop := room.innerLoop
  let n := loop.length
  (loop.getD segIdx ⟨0, 0⟩, loop.getD ((segIdx + 1) % n) ⟨0, 0⟩)

/-- Elevation rectangle `{x0, y0, x1, y1}` (the source's structurally
identical `WindowElevRect` and `DoorElevRect` records). -/
structure ElevRect where
  x0 : ℚ
  y0 : ℚ
  x1 : ℚ
  y1 : ℚ
deriving DecidableEq, Repr

/-- Source `getWindowElevationRect`: `null` unless the opening's segment
faces the view; otherwise the rectangle in elevation coordinates (origin
at the ceiling, increasing downward), with the sill defaulting to 900mm
(`entity.sillHeightMm ?? 900`). -/
def getWindowElevationRect (room : RoomModel) (entity : WallOpeningEntity)
    (view : ElevView) : Option ElevRect :=
  let segIdx := entity.attach.wallSegIndex
  if edgeFacesDirection room.innerLoop segIdx view then
    let loop := room.innerLoop
    let isNS := view.isNS
    let originH := minLoopCoord loop isNS
    let ab := segEndpoints room segIdx
    let aH := (if isNS then ab.1.x else ab.1.y) - originH
    let bH := (if isNS then ab.2.x else ab.2.y) - originH
    let startH := min aH bH
    let segLength := |bH - aH|
    let centerH := startH + entity.attach.t * segLength
    let hw := entity.widthMm / 2
    let sillH := entity.sillHeightMm.getD 900
    let H := room.wallHeight
    let y0 := H - sillH - entity.heightMm
    let y1 := H - sillH
    some ⟨centerH - hw, y0, centerH + hw, y1⟩
  else none

/-- Source `getDoorElevationRect`: identical to the window variant except
that a missing sill height defaults to 0 (`entity.sillHeightMm ?? 0`). -/
def getDoorElevationRect (room : RoomModel) (entity : WallOpeningEntity)
    (view : ElevView) : Option ElevRect :=
  let segIdx := entity.attach.wallSegIndex
  if edgeFacesDirection room.innerLoop segIdx view then
    let loop := room.innerLoop
    let isNS := view.isNS
    let originH := minLoopCoord loop isNS
    let ab := segEndpoints room segIdx
    let aH := (if isNS then ab.1.x else ab.1.y) - originH
    let bH := (if isNS then ab.2.x else ab.2.y) - originH
    let startH := min aH bH
    let segLength := |bH - aH|
    let centerH := startH + entity.attach.t * segLength
    let hw := entity.widthMm / 2
    let sillH := entity.sillHeightMm.getD 0
    let H := room.wallHeight
    let y0 := H - sillH - entity.heightMm
    let y1 := H - sillH
    some ⟨centerH - hw, y0, centerH + hw, y1⟩
  else none

/-- `Math.sqrt`, modelled over ℚ: exact whenever the radicand is a
perfect rational square (always the case for the axis-aligned wall
segments the data model guarantees); otherwise the floor square roots of
numerator and denominator, an explicitly inexact stand-in for the float
square root that no claim evaluates. -/
def ratSqrt (q : ℚ) : ℚ :=
  if q ≤ 0 then 0
  else (Nat.sqrt q.num.toNat : ℚ) / (Nat.sqrt q.den : ℚ)

/-- Snap result (source `SnapResult`), without the scratch `dist` field
that the source drops before returning. -/
structure SnapResult where
  wallSegIndex : ℕ
  t : ℚ
  point : Vec2
deriving DecidableEq, Repr

/-- One iteration of the `snapToWall` segment scan.  `best` carries the
squared distance: the source compares the nonnegative `Math.hypot`
distances `dist <= toleranceMm` and `dist < best.dist`, compared here on
squares (`dist² ≤ tol²` with `0 ≤ tol`, `dist² < best.dist²`), which is
exact and value-preserving. -/
def snapStep (loop : List Vec2) (worldPt : Vec2) (widthMm toleranceMm : ℚ)
    (best : Option (SnapResult × ℚ)) (i : ℕ) : Option (SnapResult × ℚ) :=
  let n := loop.length
  let a := loop.getD i ⟨0, 0⟩
  let b := loop.getD ((i + 1) % n) ⟨0, 0⟩
  let abx := b.x - a.x
  let aby := b.y - a.y
  let abLen2 := abx * abx + aby * aby
  if abLen2 < 1 then best
  else
    let apx := worldPt.x - a.x
    let apy := worldPt.y - a.y
    let rawT := (apx * abx + apy * aby) / abLen2
    let sLen := ratSqrt abLen2
    let halfW := widthMm / 2
    let minT := halfW / sLen
    let maxT := 1 - halfW / sLen
    if maxT < minT then best
    else
      let clampedT := max minT (min maxT rawT)
      let px := a.x + clampedT * abx
      let py := a.y + clampedT * aby
      let dist2 := (worldPt.x - px) * (worldPt.x - px) + (worldPt.y - py) * (worldPt.y - py)
      let withinTol := decide (0 ≤ toleranceMm) && decide (dist2 ≤ toleranceMm * toleranceMm)
      let beatsBest := match best with
        | none => true
        | some bd => decide (dist2 < bd.2)
      if withinTol && beatsBest then
        some (⟨i, clampedT, ⟨px, py⟩⟩, dist2)
      else best

/-- Source `snapToWall` (`windowGeometry.ts`): scan every segment, skip
segments shorter than 1mm² and segments strictly narrower than the
opening (`maxT < minT`), clamp the projection parameter into
`[minT, maxT]`, and keep the globally closest segment within tolerance. -/
def snapToWall (room : RoomModel) (worldPt : Vec2) (windowWidthMm toleranceMm : ℚ) :
    Option SnapResult :=
  let loop := room.innerLoop
  let best := (List.range loop.length).foldl
    (snapStep loop worldPt windowWidthMm toleranceMm) none
  best.map Prod.fst

/-- Source `snapDoorToWall` (`doorGeometry.ts`): textually the same
algorithm as `snapToWall` with the door width. -/
def snapDoorToWall (room : RoomModel) (worldPt : Vec2) (doorWidthMm toleranceMm : ℚ) :
    Option SnapResult :=
  let loop := room.innerLoop
  let best := (List.range loop.length).foldl
    (snapStep loop worldPt doorWidthMm toleranceMm) none
  best.map Prod.fst

/-! ## Hatch zone builder (source `core/hatch/hatchZones.ts`) -/

/-- `Math.round(pos * 10) / 10` — JS `Math.round` is `⌊x + 1/2⌋`. -/
def round10 (q : ℚ) : ℚ :=
  (⌊q * 10 + 1 / 2⌋ : ℤ) / 10

/-- Source `findElevationReturns`: positions (in elevation coordinates)
of perpendicular "return" edges adjacent to at least one facing edge,
rounded to 0.1mm, excluding positions within 0.5mm of either face end,
deduplicated (the `Set`) and sorted ascending. -/
def findElevationReturns (loop : List Vec2) (view : ElevView)
    (originH totalL : ℚ) : List ℚ :=
  let n := loop.length
  let isNS := view.isNS
  let positions := (List.range n).filterMap fun i =>
    let a := loop.getD i ⟨0, 0⟩
    let b := loop.getD ((i + 1) % n) ⟨0, 0⟩
    let dx := b.x - a.x
    let dy := b.y - a.y
    let isH := decide (|dy| < |dx|)
    let isReturnEdge := if isNS then !isH else isH
    if !isReturnEdge then none
    else
      let prevIdx := (i + n - 1) % n
      let nextIdx := (i + 1) % n
      if !edgeFacesDirection loop prevIdx view
          && !edgeFacesDirection loop nextIdx view then none
      else
        let pos := (if isNS then a.x else a.y) - originH
        if decide (1 / 2 < pos) && decide (pos < totalL - 1 / 2) then
          some (round10 pos)
        else none
  (positions.dedup.mergeSort fun p q => decide (p ≤ q))

/-- Maximum of the selected coordinate over the loop (companion to
`minLoopCoord` for the source's `bounds` helper). -/
def maxLoopCoord (loop : List Vec2) (isNS : Bool) : ℚ :=
  match loop with
  | [] => 0
  | p :: rest =>
      rest.foldl (fun m q => max m (if isNS then q.x else q.y))
        (if isNS then p.x else p.y)

/-- Source `HatchZone`. -/
structure HatchZone where
  id : String
  label : String
  outer : List Vec2
  holes : Option (List (List Vec2)) := none
  isWall : Bool := false
deriving DecidableEq, Repr

/-- Source `DEFAULT_WALL_HATCH`: the fixed wall-zone fill. -/
def DEFAULT_WALL_HATCH : HatchAssignment where
  patternId := "diagonal-right"
  color := "rgba(0,0,0,0.25)"
  bgColor := "#ffffff"
  spacingMm := 40
  lineWidthMm := 8 / 10
  angleDeg := 45
  opacity := 1

/-- Source `rect(x0, y0, x1, y1)` corner list. -/
def rectLoop (x0 y0 x1 y1 : ℚ) : List Vec2 :=
  [⟨x0, y0⟩, ⟨x1, y0⟩, ⟨x1, y1⟩, ⟨x0, y1⟩]

/-- Source `getPlanZones`: the floor (inner loop) and the wall
cross-section (outer loop with the inner loop as hole, flagged wall). -/
def getPlanZones (room : RoomModel) : List HatchZone :=
  let inner := room.innerLoop
  let outer := offsetOrthoLoop inner room.wallThickness
  [ { id := "plan:floor", label := "Floor", outer := inner },
    { id := "plan:wall", label := "Wall Section", outer := outer,
      holes := some [inner], isWall := true } ]

/-- String name of an elevation view, used to build zone ids. -/
def ElevView.name : ElevView → String
  | .north => "north"
  | .south => "south"
  | .east => "east"
  | .west => "west"

/-- Source `getElevationZones`: two fixed wall-thickness end zones plus
one face zone per section between dividers `[0, ...returns, L]`,
dropping sections narrower than 0.5mm. -/
def getElevationZones (view : ElevView) (room : RoomModel) : List HatchZone :=
  let inner := room.innerLoop
  let T := room.wallThickness
  let H := room.wallHeight
  let isNS := view.isNS
  let L := maxLoopCoord inner isNS - minLoopCoord inner isNS
  let originH := minLoopCoord inner isNS
  let wallLeft : HatchZone :=
    { id := view.name ++ ":wall-left", label := "Left Section",
      outer := rectLoop (-T) 0 0 H, isWall := true }
  let wallRight : HatchZone :=
    { id := view.name ++ ":wall-right", label := "Right Section",
      outer := rectLoop L 0 (L + T) H, isWall := true }
  let returns := findElevationReturns inner view originH L
  let dividers := 0 :: returns ++ [L]
  let faces := (List.range (dividers.length - 1)).filterMap fun i =>
    let x0 := dividers.getD i 0
    let x1 := dividers.getD (i + 1) 0
    if x1 - x0 < 1 / 2 then none
    else some
      { id := view.name ++ ":face:" ++ toString i,
        label := "Face " ++ toString (i + 1),
        outer := rectLoop x0 0 x1 H : HatchZone }
  wallLeft :: wallRight :: faces

/-- Source `getHatchZones`: plan zones or elevation zones per view. -/
def getHatchZones (view : ViewKind) (room : RoomModel) : List HatchZone :=
  match view with
  | .plan => getPlanZones room
  | .north => getElevationZones .north room
  | .south => getElevationZones .south room
  | .east => getElevationZones .east room
  | .west => getElevationZones .west room

/-- The `hatchFill` drawable primitive, restricted to the fields
`buildHatchPrimitives` actually sets. -/
structure HatchFillPrim where
  zoneId : String
  outer : List Vec2
  holes : Option (List (List Vec2))
  patternId : String
  color : String
  bgColor : String
  spacingMm : ℚ
  lineWidthMm : ℚ
  angleDeg : ℚ
  opacity : ℚ
deriving DecidableEq, Repr

/-- Source `buildHatchPrimitives`: per zone, resolve the fill config —
an active preview first, else a user-assigned `hatches` entry keyed by
the zone id (pattern id "none" suppressing the fill), else the fixed
wall default for wall zones, else nothing — and emit one `hatchFill`
primitive per resolved zone (preview fills at capped opacity). -/
def buildHatchPrimitives (view : ViewKind) (room : RoomModel)
    (previewZoneId : Option String) (previewConfig : Option HatchAssignment) :
    List HatchFillPrim :=
  let zones := getHatchZones view room
  let hatches := room.hatches
  zones.filterMap fun zone =>
    let isPreview := previewZoneId = some zone.id
    let config : Option HatchAssignment :=
      if isPreview then previewConfig
      else match hatches.lookup zone.id with
        | some a => if a.patternId ≠ "none" then some a else none
        | none => if zone.isWall then some DEFAULT_WALL_HATCH else none
    config.map fun c =>
      { zoneId := zone.id, outer := zone.outer, holes := zone.holes,
        patternId := c.patternId, color := c.color, bgColor := c.bgColor,
        spacingMm := c.spacingMm, lineWidthMm := c.lineWidthMm,
        angleDeg := c.angleDeg,
        opacity := if isPreview then min c.opacity (1 / 2) else c.opacity }

/-! ## Concrete instances used to evaluate the claims -/

/-- Moving a vertex along one axis (the per-axis effect of
`translateVertices` inside `moveWallLine`). -/
def axisShift (ax : Axis) (delta : ℚ) (v : Vec2) : Vec2 :=
  match ax with
  | .x => ⟨v.x + delta, v.y⟩
  | .y => ⟨v.x, v.y + delta⟩

/-- The empty history over the default room. -/
def histInit : HistoryState :=
  ⟨[], createDefaultRoom, []⟩

/-- A command that raises the wall height by 1mm (a genuinely
model-changing command). -/
def cmdInc : Command where
  doFn := fun r => { r with wallHeight := r.wallHeight + 1 }
  undoFn := fun r => { r with wallHeight := r.wallHeight - 1 }

/-- A 2500 × 2500 room: every wall segment has length exactly 2500mm. -/
def squareRoom : RoomModel :=
  { createDefaultRoom with
      innerLoop := [⟨0, 0⟩, ⟨2500, 0⟩, ⟨2500, 2500⟩, ⟨0, 2500⟩] }

/-- A user hatch assignment with pattern id "solid". -/
def userWallAssign : HatchAssignment where
  patternId := "solid"
  color := "#ff0000"
  bgColor := "#ffffff"
  spacingMm := 40
  lineWidthMm := 1
  angleDeg := 0
  opacity := 1

/-- The default room with a user hatch assignment on the wall zone. -/
def hatchRoom : RoomModel :=
  { createDefaultRoom with hatches := [("plan:wall", userWallAssign)] }

/-- The floor zone of a room's plan view (first element of
`getPlanZones`). -/
def planFloorZone (room : RoomModel) : HatchZone :=
  { id := "plan:floor", label := "Floor", outer := room.innerLoop }

/-- The wall cross-section zone of a room's plan view (second element of
`getPlanZones`). -/
def planWallZone (room : RoomModel) : HatchZone :=
  { id := "plan:wall", label := "Wall Section",
    outer := offsetOrthoLoop room.innerLoop room.wallThickness,
    holes := some [room.innerLoop], isWall := true }

/-- A door on segment 0 of the default room with an explicit 100mm sill. -/
def doorWithSill : WallOpeningEntity where
  id := "door-1"
  attach := ⟨0, 1 / 2, none⟩
  openingType := .door
  widthMm := 900
  heightMm := 2100
  sillHeightMm := some 100

/-- An opening on segment 0 of the default room with no stored sill. -/
def openingNoSill : WallOpeningEntity where
  id := "win-1"
  attach := ⟨0, 1 / 2, none⟩
  openingType := .window
  widthMm := 900
  heightMm := 1200
  sillHeightMm := none

/-- A concrete dimension-override record on the default 4-segment room. -/
def dimW : List (ℕ × String) :=
  [(0, "a"), (1, "b"), (3, "c")]

/-! # Theorems -/

/-! ## Command history (C1, C2, C9) -/

theorem head?_append_of_isSome {α : Type} (l l' : List α) (h : l.head?.isSome) :
    (l ++ l').head? = l.head? := by
  cases l <;> simp_all

theorem bottomIs_execute (init : RoomModel) (s : HistoryState) (c : Command)
    (h : bottomIs init s) : bottomIs init (historyReducer s (.execute c)) := by
  unfold bottomIs at h ⊢
  simp only [historyReducer]
  split
  · exact h
  · show ((s.past ++ [s.present]) ++ [c.doFn s.present]).head? = some init
    rw [head?_append_of_isSome]
    · exact h
    · cases s.past <;> simp

theorem execute_past_len (s : HistoryState) (c : Command) :
    (historyReducer s (.execute c)).past.length ≤ s.past.length + 1 := by
  simp only [historyReducer]
  split
  · omega
  · simp

theorem execAll_bottom (init : RoomModel) (cmds : List Command) :
    ∀ s, bottomIs init s → bottomIs init (execAll s cmds) := by
  induction cmds with
  | nil => intro s h; exact h
  | cons c cs ih =>
      intro s h
      exact ih _ (bottomIs_execute init s c h)

theorem execAll_past_len (cmds : List Command) :
    ∀ s, (execAll s cmds).past.length ≤ s.past.length + cmds.length := by
  induction cmds with
  | nil => intro s; simp [execAll]
  | cons c cs ih =>
      intro s
      have h1 := ih (historyReducer s (.execute c))
      have h2 := execute_past_len s c
      calc (execAll s (c :: cs)).past.length
          = (execAll (historyReducer s (.execute c)) cs).past.length := rfl
        _ ≤ (historyReducer s (.execute c)).past.length + cs.length := h1
        _ ≤ s.past.length + (c :: cs).length := by simp; omega

theorem bottomIs_undo (init : RoomModel) (s : HistoryState)
    (h : bottomIs init s) : bottomIs init (historyReducer s .undo) := by
  obtain ⟨past, present, future⟩ := s
  unfold bottomIs at h ⊢
  rcases List.eq_nil_or_concat past with rfl | ⟨l, a, rfl⟩
  · simpa [historyReducer] using h
  · simp only [historyReducer, List.concat_eq_append, List.getLast?_concat,
      List.dropLast_concat]
    simp only [List.concat_eq_append] at h
    rw [head?_append_of_isSome] at h
    · exact h
    · cases l <;> simp

theorem undo_noop_of_empty (s : HistoryState) (hp : s.past = []) :
    historyReducer s .undo = s := by
  simp only [historyReducer, hp]
  rfl

theorem undo_past_len (s : HistoryState) (hp : s.past ≠ []) :
    (historyReducer s .undo).past.length + 1 = s.past.length := by
  simp only [historyReducer]
  cases hg : s.past.getLast? with
  | none =>
      rw [List.getLast?_eq_none_iff] at hg
      exact absurd hg hp
  | some prev =>
      simp only [List.length_dropLast]
      have : 0 < s.past.length := List.length_pos.mpr hp
      omega

theorem undoTimes_restores (init : RoomModel) :
    ∀ (m : ℕ) (s : HistoryState), bottomIs init s → s.past.length ≤ m →
      (undoTimes s m).present = init := by
  intro m
  induction m with
  | zero =>
      intro s h hlen
      have hp : s.past = [] := List.length_eq_zero.mp (Nat.le_zero.mp hlen)
      unfold bottomIs at h
      rw [hp] at h
      simp at h
      exact h
  | succ m ih =>
      intro s h hlen
      show (undoTimes (historyReducer s .undo) m).present = init
      by_cases hp : s.past = []
      · rw [undo_noop_of_empty s hp]
        exact ih s h (by rw [hp]; simp)
      · apply ih _ (bottomIs_undo init s h)
        have := undo_past_len s hp
        omega

/-- C1: starting from an empty history, any `N` EXECUTE dispatches
followed by `N` UNDO dispatches leave `present` structurally equal to
the initial model; and immediately after a fresh EXECUTE (one whose
command changed the model) the future stack is empty, so a single REDO
is a no-op. -/
theorem history_round_trip_and_redo_noop :
    (∀ (cmds : List Command) (init : RoomModel),
      (undoTimes (execAll ⟨[], init, []⟩ cmds) cmds.length).present = init)
    ∧ ∀ (s : HistoryState) (cmd : Command),
        cmd.doFn s.present ≠ s.present →
        (historyReducer s (.execute cmd)).future = []
        ∧ historyReducer (historyReducer s (.execute cmd)) .redo
            = historyReducer s (.execute cmd) := by
  constructor
  · intro cmds init
    apply undoTimes_restores
    · apply execAll_bottom
      unfold bottomIs
      simp
    · have := execAll_past_len cmds ⟨[], init, []⟩
      simpa using this
  · intro s cmd h
    have hred : historyReducer s (.execute cmd)
        = ⟨s.past ++ [s.present], cmd.doFn s.present, []⟩ := by
      simp [historyReducer, h]
    rw [hred]
    exact ⟨rfl, rfl⟩

/-- C1 witness: one wall-height-raising command executed then undone on
the default room restores it, and the redo after the fresh execute is a
no-op. -/
theorem history_round_trip_and_redo_noop_witness :
    (undoTimes (execAll ⟨[], createDefaultRoom, []⟩ [cmdInc]) [cmdInc].length).present
      = createDefaultRoom
    ∧ cmdInc.doFn histInit.present ≠ histInit.present
    ∧ (historyReducer histInit (.execute cmdInc)).future = []
    ∧ historyReducer (historyReducer histInit (.execute cmdInc)) .redo
        = historyReducer histInit (.execute cmdInc) := by
  have hne : cmdInc.doFn histInit.present ≠ histInit.present := by
    intro h
    have hw := congrArg RoomModel.wallHeight h
    simp [cmdInc, histInit, createDefaultRoom] at hw
  exact ⟨history_round_trip_and_redo_noop.1 [cmdInc] createDefaultRoom, hne,
    (history_round_trip_and_redo_noop.2 histInit cmdInc hne).1,
    (history_round_trip_and_redo_noop.2 histInit cmdInc hne).2⟩

theorem previewAll_frame (us : List (RoomModel → RoomModel)) :
    ∀ s, (previewAll s us).past = s.past ∧ (previewAll s us).future = s.future := by
  induction us with
  | nil => intro s; exact ⟨rfl, rfl⟩
  | cons u us ih =>
      intro s
      exact ih { s with present := u s.present }

/-- C2 (amended): `M` consecutive PREVIEW dispatches touch neither
`past` nor `future`, and — provided the committed `after` differs from
`before` — the single COMMIT_SNAPSHOT that ends the gesture adds exactly
one entry to `past`. -/
theorem gesture_atomicity (s : HistoryState) (us : List (RoomModel → RoomModel))
    (before after : RoomModel) (h : after ≠ before) :
    (previewAll s us).past = s.past
    ∧ (previewAll s us).future = s.future
    ∧ (historyReducer (previewAll s us) (.commitSnapshot before after)).past
        = s.past ++ [before]
    ∧ (historyReducer (previewAll s us) (.commitSnapshot before after)).past.length
        = s.past.length + 1 := by
  obtain ⟨hp, hf⟩ := previewAll_frame us s
  have hc : (historyReducer (previewAll s us) (.commitSnapshot before after)).past
      = s.past ++ [before] := by
    simp [historyReducer, h, hp]
  exact ⟨hp, hf, hc, by rw [hc]; simp⟩

/-- C2 counterexample: a gesture whose previews leave the model where it
started (`after === before`) commits nothing — COMMIT_SNAPSHOT's no-op
guard fires and zero entries are added, not one. -/
theorem gesture_atomicity_counterexample :
    ¬ ((historyReducer (previewAll histInit [fun r => r])
          (.commitSnapshot createDefaultRoom createDefaultRoom)).past.length
        = histInit.past.length + 1) := by
  simp [previewAll, historyReducer, histInit]

/-- C2 witness: a one-preview gesture committed with a genuinely changed
`after` adds exactly one `past` entry. -/
theorem gesture_atomicity_witness :
    cmdInc.doFn createDefaultRoom ≠ createDefaultRoom
    ∧ (historyReducer (previewAll histInit [fun r => cmdInc.doFn r])
          (.commitSnapshot createDefaultRoom (cmdInc.doFn createDefaultRoom))).past.length
        = histInit.past.length + 1 := by
  have hne : cmdInc.doFn createDefaultRoom ≠ createDefaultRoom := by
    intro h
    have hw := congrArg RoomModel.wallHeight h
    simp [cmdInc, createDefaultRoom] at hw
  exact ⟨hne,
    (gesture_atomicity histInit [fun r => cmdInc.doFn r] createDefaultRoom
      (cmdInc.doFn createDefaultRoom) hne).2.2.2⟩

/-- C9: COMMIT_SNAPSHOT with a changed `after` clears the future stack
(so an immediately following REDO is a no-op), and with `after`
identical to `before` it leaves the whole history state unchanged. -/
theorem commitSnapshot_semantics (s : HistoryState) (before after : RoomModel) :
    (after ≠ before →
      (historyReducer s (.commitSnapshot before after)).future = []
      ∧ historyReducer (historyReducer s (.commitSnapshot before after)) .redo
          = historyReducer s (.commitSnapshot before after))
    ∧ (after = before → historyReducer s (.commitSnapshot before after) = s) := by
  constructor
  · intro h
    have hred : historyReducer s (.commitSnapshot before after)
        = ⟨s.past ++ [before], after, []⟩ := by
      simp [historyReducer, h]
    rw [hred]
    exact ⟨rfl, rfl⟩
  · intro h
    simp [historyReducer, h]

/-- C9 witness: concrete changed and unchanged commits on the default
room. -/
theorem commitSnapshot_semantics_witness :
    cmdInc.doFn createDefaultRoom ≠ createDefaultRoom
    ∧ (historyReducer histInit
        (.commitSnapshot createDefaultRoom (cmdInc.doFn createDefaultRoom))).future = []
    ∧ historyReducer histInit (.commitSnapshot createDefaultRoom createDefaultRoom)
        = histInit := by
  have hne : cmdInc.doFn createDefaultRoom ≠ createDefaultRoom := by
    intro h
    have hw := congrArg RoomModel.wallHeight h
    simp [cmdInc, createDefaultRoom] at hw
  exact ⟨hne,
    ((commitSnapshot_semantics histInit createDefaultRoom
        (cmdInc.doFn createDefaultRoom)).1 hne).1,
    (commitSnapshot_semantics histInit createDefaultRoom createDefaultRoom).2 rfl⟩

/-! ## Wall offset projector (C7) -/

/-- Both lines through a shared point `c` intersect at `c`: in the
near-parallel fallback the source returns `p2 = c`, and otherwise the
determinant formula evaluates to `c` exactly. -/
theorem intersectLines_join (p1 c p4 : Vec2) : intersectLines p1 c c p4 = c := by
  obtain ⟨cx, cy⟩ := c
  simp only [intersectLines]
  split
  · rfl
  · next hden =>
    have h9 : (0 : ℚ) < 1 / 1000000000 := by norm_num
    have hne : (p1.x - cx) * (cy - p4.y) - (p1.y - cy) * (cx - p4.x) ≠ 0 := by
      intro h0
      exact hden (by rw [h0]; simp [h9])
    simp only [Vec2.mk.injEq]
    constructor
    · rw [div_eq_iff hne]; ring
    · rw [div_eq_iff hne]; ring

/-- C7: offsetting the inner loop by thickness `t = 0` is the identity:
`offsetOrthoLoop(loop, 0)` returns a loop equal to the input, for every
loop. -/
theorem offsetOrthoLoop_zero_identity (loop : List Vec2) :
    offsetOrthoLoop loop 0 = loop := by
  apply List.ext_getElem
  · simp [offsetOrthoLoop]
  · intro i h1 h2
    simp only [offsetOrthoLoop, List.getElem_map, List.getElem_range]
    have hoff : ∀ (a b n1 c d n2 : Vec2),
        intersectOffsetLines a b n1 c d n2 0 = intersectLines a b c d := by
      intro a b n1 c d n2
      simp [intersectOffsetLines]
    rw [hoff, List.getD_eq_getElem loop ⟨0, 0⟩ h2, intersectLines_join]

/-! ## Elevation rectangles (C5, C10) -/

/-- C5: for a wall opening with an explicit sill height, the door and
window elevation rectangles are `null` exactly when the opening's wall
segment does not face the requested direction, and otherwise their
vertical extent runs from `wallHeight − sillHeight − height` (`y0`, top)
to `wallHeight − sillHeight` (`y1`, bottom), origin at the ceiling
increasing downward. -/
theorem elevation_rect_facing_and_extent (room : RoomModel)
    (entity : WallOpeningEntity) (view : ElevView) (s : ℚ)
    (hs : entity.sillHeightMm = some s) :
    (getDoorElevationRect room entity view = none ↔
      edgeFacesDirection room.innerLoop entity.attach.wallSegIndex view = false)
    ∧ (∀ r, getDoorElevationRect room entity view = some r →
        r.y0 = room.wallHeight - s - entity.heightMm
        ∧ r.y1 = room.wallHeight - s)
    ∧ (getWindowElevationRect room entity view = none ↔
      edgeFacesDirection room.innerLoop entity.attach.wallSegIndex view = false)
    ∧ (∀ r, getWindowElevationRect room entity view = some r →
        r.y0 = room.wallHeight - s - entity.heightMm
        ∧ r.y1 = room.wallHeight - s) := by
  by_cases hface : edgeFacesDirection room.innerLoop entity.attach.wallSegIndex view = true
  · refine ⟨?_, ?_, ?_, ?_⟩
    · simp [getDoorElevationRect, hface]
    · intro r hr
      simp only [getDoorElevationRect, hface, if_true, Option.some.injEq] at hr
      rw [← hr]
      simp [hs]
    · simp [getWindowElevationRect, hface]
    · intro r hr
      simp only [getWindowElevationRect, hface, if_true, Option.some.injEq] at hr
      rw [← hr]
      simp [hs]
  · rw [Bool.not_eq_true] at hface
    refine ⟨?_, ?_, ?_, ?_⟩
    · simp [getDoorElevationRect, hface]
    · intro r hr
      simp [getDoorElevationRect, hface] at hr
    · simp [getWindowElevationRect, hface]
    · intro r hr
      simp [getWindowElevationRect, hface] at hr

/-- C5 witness: the 100mm-sill door on segment 0 of the default room,
viewed from the north. -/
theorem elevation_rect_facing_and_extent_witness :
    doorWithSill.sillHeightMm = some 100
    ∧ (getDoorElevationRect createDefaultRoom doorWithSill .north = none ↔
        edgeFacesDirection createDefaultRoom.innerLoop
          doorWithSill.attach.wallSegIndex .north = false)
    ∧ ((⟨800, 200, 1700, 2300⟩ : ElevRect).y0
        = createDefaultRoom.wallHeight - 100 - doorWithSill.heightMm
      ∧ (⟨800, 200, 1700, 2300⟩ : ElevRect).y1
        = createDefaultRoom.wallHeight - 100) :=
  by
  have hval : getDoorElevationRect createDefaultRoom doorWithSill .north
      = some ⟨800, 200, 1700, 2300⟩ := by
    simp [getDoorElevationRect, edgeFacesDirection, createDefaultRoom,
      doorWithSill, minLoopCoord, segEndpoints, ElevView.isNS]
    norm_num
  exact ⟨rfl,
    (elevation_rect_facing_and_extent createDefaultRoom doorWithSill .north 100 rfl).1,
    (elevation_rect_facing_and_extent createDefaultRoom doorWithSill .north 100 rfl).2.1
      ⟨800, 200, 1700, 2300⟩ hval⟩

/-- C10: when `sillHeightMm` is absent, the window elevation rectangle
uses a 900mm default sill (`y1 = wallHeight − 900`) while the door
elevation rectangle treats the sill as 0 (`y1 = wallHeight`, the
floor). -/
theorem sill_height_defaults (room : RoomModel) (entity : WallOpeningEntity)
    (view : ElevView) (hs : entity.sillHeightMm = none) :
    (∀ r, getWindowElevationRect room entity view = some r →
      r.y0 = room.wallHeight - 900 - entity.heightMm
      ∧ r.y1 = room.wallHeight - 900)
    ∧ (∀ r, getDoorElevationRect room entity view = some r →
      r.y0 = room.wallHeight - entity.heightMm
      ∧ r.y1 = room.wallHeight) := by
  constructor
  · intro r hr
    by_cases hface : edgeFacesDirection room.innerLoop entity.attach.wallSegIndex view = true
    · simp only [getWindowElevationRect, hface, if_true, Option.some.injEq] at hr
      rw [← hr]
      constructor
      · simp [hs]
      · simp [hs]
    · rw [Bool.not_eq_true] at hface
      simp [getWindowElevationRect, hface] at hr
  · intro r hr
    by_cases hface : edgeFacesDirection room.innerLoop entity.attach.wallSegIndex view = true
    · simp only [getDoorElevationRect, hface, if_true, Option.some.injEq] at hr
      rw [← hr]
      constructor
      · simp [hs]
      · simp [hs]
    · rw [Bool.not_eq_true] at hface
      simp [getDoorElevationRect, hface] at hr

/-- C10 witness: the sill-less 900 × 1200 opening on segment 0 of the
default room, viewed from the north: the window rectangle bottoms out at
`2400 − 900 = 1500`, the door rectangle at the floor `2400`. -/
theorem sill_height_defaults_witness :
    openingNoSill.sillHeightMm = none
    ∧ ((⟨800, 300, 1700, 1500⟩ : ElevRect).y0
        = createDefaultRoom.wallHeight - 900 - openingNoSill.heightMm
      ∧ (⟨800, 300, 1700, 1500⟩ : ElevRect).y1
        = createDefaultRoom.wallHeight - 900)
    ∧ ((⟨800, 1200, 1700, 2400⟩ : ElevRect).y0
        = createDefaultRoom.wallHeight - openingNoSill.heightMm
      ∧ (⟨800, 1200, 1700, 2400⟩ : ElevRect).y1
        = createDefaultRoom.wallHeight) :=
  by
  have hwin : getWindowElevationRect createDefaultRoom openingNoSill .north
      = some ⟨800, 300, 1700, 1500⟩ := by
    simp [getWindowElevationRect, edgeFacesDirection, createDefaultRoom,
      openingNoSill, minLoopCoord, segEndpoints, ElevView.isNS]
    norm_num
  have hdoor : getDoorElevationRect createDefaultRoom openingNoSill .north
      = some ⟨800, 1200, 1700, 2400⟩ := by
    simp [getDoorElevationRect, edgeFacesDirection, createDefaultRoom,
      openingNoSill, minLoopCoord, segEndpoints, ElevView.isNS]
    norm_num
  exact ⟨rfl,
    (sill_height_defaults createDefaultRoom openingNoSill .north rfl).1
      ⟨800, 300, 1700, 1500⟩ hwin,
    (sill_height_defaults createDefaultRoom openingNoSill .north rfl).2
      ⟨800, 1200, 1700, 2400⟩ hdoor⟩

/-! ## Move wall line (C3) -/

theorem translateVertices_get? (dx dy : ℚ) :
    ∀ (idxs : List ℕ) (loop : List Vec2), idxs.Nodup →
      (∀ i ∈ idxs, i < loop.length) → ∀ j,
      (translateVertices loop idxs dx dy).get? j =
        if j ∈ idxs then (loop.get? j).map (fun v => ⟨v.x + dx, v.y + dy⟩)
        else loop.get? j := by
  intro idxs
  induction idxs with
  | nil =>
      intro loop _ _ j
      simp [translateVertices]
  | cons i is ih =>
      intro loop hnd hlt j
      have hi : i < loop.length := hlt i (by simp)
      have hnotmem : i ∉ is := (List.nodup_cons.mp hnd).1
      have hstep : translateVertices loop (i :: is) dx dy
          = translateVertices
              (loop.set i ⟨(loop.getD i ⟨0, 0⟩).x + dx, (loop.getD i ⟨0, 0⟩).y + dy⟩)
              is dx dy := rfl
      rw [hstep, ih _ (List.nodup_cons.mp hnd).2
        (fun k hk => by rw [List.length_set]; exact hlt k (by simp [hk])) j]
      by_cases hjis : j ∈ is
      · have hji : j ≠ i := fun h => hnotmem (h ▸ hjis)
        rw [if_pos hjis, if_pos (by simp [hjis]), List.get?_set_ne _ _ (fun h => hji h.symm)]
      · by_cases hji : j = i
        · subst hji
          rw [if_neg hjis, if_pos (by simp)]
          simp [List.get?_eq_getElem?, List.getElem?_set, hi,
            List.getElem?_eq_getElem hi, List.getD_eq_getElem loop ⟨0, 0⟩ hi]
        · rw [if_neg hjis, if_neg (by simp [hji, hjis]),
            List.get?_set_ne _ _ (fun h => hji h.symm)]

theorem verticesOnLine_mem (loop : List Vec2) (ax : Axis) (coord eps : ℚ) (j : ℕ)
    (hj : j < loop.length) :
    j ∈ verticesOnLine loop ax coord eps ↔
      nearlyEqual (axisCoord ax loop[j]) coord eps := by
  simp [verticesOnLine, List.mem_filter, List.mem_range, hj,
    List.getD_eq_getElem loop ⟨0, 0⟩ hj]

theorem axisShift_neg_cancel (ax : Axis) (delta : ℚ) (v : Vec2) :
    axisShift ax (-delta) (axisShift ax delta v) = v := by
  obtain ⟨vx, vy⟩ := v
  cases ax <;> simp [axisShift]

theorem axisCoord_axisShift (ax : Axis) (delta : ℚ) (v : Vec2) :
    axisCoord ax (axisShift ax delta v) = axisCoord ax v + delta := by
  obtain ⟨vx, vy⟩ := v
  cases ax <;> simp [axisShift, axisCoord]

theorem nearlyEqual_shift (c coord delta eps : ℚ) :
    nearlyEqual (c + delta) (coord + delta) eps ↔ nearlyEqual c coord eps := by
  unfold nearlyEqual
  have harith : c + delta - (coord + delta) = c - coord := by ring
  rw [harith]

theorem moveWallLine_get? (loop : List Vec2) (ax : Axis) (coord delta : ℚ) (j : ℕ) :
    (moveWallLine loop ax coord delta).loop.get? j =
      (loop.get? j).map fun v =>
        if nearlyEqual (axisCoord ax v) coord EPS then axisShift ax delta v else v := by
  have hnd : (verticesOnLine loop ax coord).Nodup :=
    (List.nodup_range loop.length).filter _
  have hlt : ∀ i ∈ verticesOnLine loop ax coord, i < loop.length := by
    intro i hi
    have := List.mem_filter.mp hi
    exact List.mem_range.mp this.1
  show (translateVertices loop (verticesOnLine loop ax coord) _ _).get? j = _
  rw [translateVertices_get? _ _ _ loop hnd hlt j]
  by_cases hj : j < loop.length
  · rw [List.get?_eq_getElem?, List.getElem?_eq_getElem hj]
    have hmem := verticesOnLine_mem loop ax coord EPS j hj
    by_cases hc : nearlyEqual (axisCoord ax loop[j]) coord EPS
    · rw [if_pos (hmem.mpr hc)]
      simp only [Option.map_some', Option.some.injEq, if_pos hc]
      cases ax <;> simp [axisShift]
    · rw [if_neg (fun hm => hc (hmem.mp hm))]
      simp only [Option.map_some', Option.some.injEq, if_neg hc]
  · rw [if_neg (fun hm => hj (hlt j hm)), List.get?_eq_getElem?,
      List.getElem?_eq_none (Nat.le_of_not_lt hj)]
    rfl

/-- C3 (amended): the move round-trip
`moveWallLine(loop, axis, coord, δ)` then
`moveWallLine(result, axis, coord+δ, −δ)` restores the original vertex
positions, provided no vertex outside the `EPS` band of `coord` sits
within `EPS` of the target line `coord+δ` (otherwise the reverse move
also drags that unrelated wall line, as the counterexample shows). -/
theorem moveWallLine_round_trip (loop : List Vec2) (ax : Axis) (coord delta : ℚ)
    (h : ∀ v ∈ loop, ¬ nearlyEqual (axisCoord ax v) coord EPS →
          ¬ nearlyEqual (axisCoord ax v) (coord + delta) EPS) :
    (moveWallLine (moveWallLine loop ax coord delta).loop ax (coord + delta) (-delta)).loop
      = loop := by
  apply List.ext
  intro j
  rw [moveWallLine_get?, moveWallLine_get?, Option.map_map]
  by_cases hj : j < loop.length
  · rw [List.get?_eq_getElem?, List.getElem?_eq_getElem hj]
    have hv : loop[j] ∈ loop := by
      exact List.getElem_mem hj
    simp only [Option.map_some', Function.comp_apply, Option.some.injEq]
    by_cases hc : nearlyEqual (axisCoord ax loop[j]) coord EPS
    · rw [if_pos hc]
      have hshift : nearlyEqual (axisCoord ax (axisShift ax delta loop[j]))
          (coord + delta) EPS := by
        rw [axisCoord_axisShift, nearlyEqual_shift]
        exact hc
      rw [if_pos hshift, axisShift_neg_cancel]
    · rw [if_neg hc, if_neg (h loop[j] hv hc)]
  · rw [List.get?_eq_getElem?, List.getElem?_eq_none (Nat.le_of_not_lt hj)]
    rfl

/-- C3 counterexample: on a 5 × 5 square, moving the `x = 0` wall line by
`δ = 5` lands its vertices on the `x = 5` wall line; the reverse move
`moveWallLine(·, x, 5, −5)` then drags all four vertices, so the
original loop is not restored. -/
theorem moveWallLine_round_trip_counterexample :
    (moveWallLine (moveWallLine [⟨0, 0⟩, ⟨5, 0⟩, ⟨5, 5⟩, ⟨0, 5⟩] .x 0 5).loop
        .x (0 + 5) (-5)).loop
      ≠ [⟨0, 0⟩, ⟨5, 0⟩, ⟨5, 5⟩, ⟨0, 5⟩] := by
  have h1 : (moveWallLine [(⟨0, 0⟩ : Vec2), ⟨5, 0⟩, ⟨5, 5⟩, ⟨0, 5⟩] .x 0 5).loop
      = [⟨5, 0⟩, ⟨5, 0⟩, ⟨5, 5⟩, ⟨5, 5⟩] := by
    norm_num [moveWallLine, verticesOnLine, translateVertices, nearlyEqual,
      axisCoord, EPS, List.range_succ, List.getD]
  rw [h1]
  have h2 : (moveWallLine [(⟨5, 0⟩ : Vec2), ⟨5, 0⟩, ⟨5, 5⟩, ⟨5, 5⟩] .x (0 + 5) (-5)).loop
      = [⟨0, 0⟩, ⟨0, 0⟩, ⟨0, 5⟩, ⟨0, 5⟩] := by
    norm_num [moveWallLine, verticesOnLine, translateVertices, nearlyEqual,
      axisCoord, EPS, List.range_succ, List.getD]
  rw [h2]
  intro hcontra
  have hmid := congrArg (fun l => List.getD l 1 (⟨0, 0⟩ : Vec2)) hcontra
  simp [List.getD] at hmid

/-- C3 witness: moving the `y = 0` wall of the default room down by
200mm and back restores the loop (no other wall line sits within `EPS`
of `y = 200`). -/
theorem moveWallLine_round_trip_witness :
    (∀ v ∈ createDefaultRoom.innerLoop,
      ¬ nearlyEqual (axisCoord .y v) 0 EPS →
        ¬ nearlyEqual (axisCoord .y v) (0 + 200) EPS)
    ∧ (moveWallLine (moveWallLine createDefaultRoom.innerLoop .y 0 200).loop
        .y (0 + 200) (-200)).loop = createDefaultRoom.innerLoop := by
  have hside : ∀ v ∈ createDefaultRoom.innerLoop,
      ¬ nearlyEqual (axisCoord .y v) 0 EPS →
        ¬ nearlyEqual (axisCoord .y v) (0 + 200) EPS := by
    intro v hv
    simp only [createDefaultRoom, List.mem_cons, List.not_mem_nil, or_false] at hv
    rcases hv with rfl | rfl | rfl | rfl <;>
      · unfold nearlyEqual axisCoord EPS
        intro hno
        norm_num
  exact ⟨hside, moveWallLine_round_trip createDefaultRoom.innerLoop .y 0 200 hside⟩

/-! ## Vertex insertion remap (C6) -/

theorem lookup_filterMap_none (f : ℕ × String → Option (ℕ × String)) (target : ℕ)
    (hf : ∀ kv kv', f kv = some kv' → kv'.1 ≠ target) :
    ∀ l : List (ℕ × String), (l.filterMap f).lookup target = none := by
  intro l
  induction l with
  | nil => rfl
  | cons kv tl ih =>
      rw [List.filterMap_cons]
      cases hkv : f kv with
      | none => exact ih
      | some kv' =>
          obtain ⟨k', v'⟩ := kv'
          have hne : k' ≠ target := hf kv (k', v') hkv
          have hb : (target == k') = false :=
            beq_eq_false_iff_ne.mpr (fun h => hne h.symm)
          simp only [List.lookup, hb]
          exact ih

theorem lookup_filterMap_moved (f : ℕ × String → Option (ℕ × String)) (k : ℕ) (v : String)
    (hEmit : ∀ w, f (k, w) = some (k + 1, w))
    (hOther : ∀ kv kv', kv.1 ≠ k → f kv = some kv' → kv'.1 ≠ k + 1) :
    ∀ l : List (ℕ × String), l.lookup k = some v →
      (l.filterMap f).lookup (k + 1) = some v := by
  intro l
  induction l with
  | nil => intro h; cases h
  | cons kv tl ih =>
      intro hlk
      obtain ⟨k0, v0⟩ := kv
      by_cases hk : k = k0
      · subst hk
        have hv0 : v0 = v := by
          simp only [List.lookup, beq_self_eq_true] at hlk
          exact Option.some.inj hlk
        subst hv0
        rw [List.filterMap_cons, hEmit v0]
        simp [List.lookup]
      · have htl : tl.lookup k = some v := by
          have hb : (k == k0) = false := beq_eq_false_iff_ne.mpr hk
          simp only [List.lookup, hb] at hlk
          exact hlk
        rw [List.filterMap_cons]
        cases hkv : f (k0, v0) with
        | none => exact ih htl
        | some kv' =>
            obtain ⟨k', v'⟩ := kv'
            have hne : k' ≠ k + 1 :=
              hOther (k0, v0) (k', v') (by simpa using fun h => hk h.symm) hkv
            have hb : (k + 1 == k') = false :=
              beq_eq_false_iff_ne.mpr (fun h => hne h.symm)
            simp only [List.lookup, hb]
            exact ih htl

theorem mem_of_lookup_eq_some (k : ℕ) (v : String) :
    ∀ l : List (ℕ × String), l.lookup k = some v → (k, v) ∈ l := by
  intro l
  induction l with
  | nil => intro h; cases h
  | cons kv tl ih =>
      intro h
      obtain ⟨k0, v0⟩ := kv
      by_cases hk : k = k0
      · subst hk
        simp only [List.lookup, beq_self_eq_true] at h
        have hv := Option.some.inj h
        subst hv
        exact List.mem_cons_self _ _
      · have hb : (k == k0) = false := beq_eq_false_iff_ne.mpr hk
        simp only [List.lookup, hb] at h
        exact List.mem_cons_of_mem _ (ih h)

/-- C6: inserting a vertex at `(1250, 0)` on segment 0 of the default
4-vertex rectangular loop yields the expected 5-vertex loop; in the
remapped `dimText` the split segment's own entry (key 0) is dropped
(both new keys 0 and 1 are free) and every valid entry with key `k > 0`
moves to key `k + 1`. -/
theorem insertVertex_rect_remap (dim : List (ℕ × String))
    (hvalid : ∀ kv ∈ dim, kv.1 < 4) :
    (insertVertexOnSegment { createDefaultRoom with dimText := dim } 0
        ⟨1250, 0⟩).innerLoop
      = [⟨0, 0⟩, ⟨1250, 0⟩, ⟨2500, 0⟩, ⟨2500, 4000⟩, ⟨0, 4000⟩]
    ∧ (insertVertexOnSegment { createDefaultRoom with dimText := dim } 0
        ⟨1250, 0⟩).dimText.lookup 0 = none
    ∧ (insertVertexOnSegment { createDefaultRoom with dimText := dim } 0
        ⟨1250, 0⟩).dimText.lookup 1 = none
    ∧ ∀ k v, 0 < k → dim.lookup k = some v →
        (insertVertexOnSegment { createDefaultRoom with dimText := dim } 0
          ⟨1250, 0⟩).dimText.lookup (k + 1) = some v := by
  have hdim : (insertVertexOnSegment { createDefaultRoom with dimText := dim } 0
        ⟨1250, 0⟩).dimText
      = dim.filterMap (fun kv =>
          if kv.1 < 0 then some kv
          else if 0 < kv.1 ∧ kv.1 < 4 then some (kv.1 + 1, kv.2) else none) := rfl
  refine ⟨rfl, ?_, ?_, ?_⟩
  · rw [hdim]
    apply lookup_filterMap_none
    intro kv kv' hkv
    by_cases h1 : kv.1 < 0
    · omega
    · rw [if_neg h1] at hkv
      by_cases h2 : 0 < kv.1 ∧ kv.1 < 4
      · rw [if_pos h2] at hkv
        injection hkv with hkv
        subst hkv
        simp
      · rw [if_neg h2] at hkv
        cases hkv
  · rw [hdim]
    apply lookup_filterMap_none
    intro kv kv' hkv
    by_cases h1 : kv.1 < 0
    · omega
    · rw [if_neg h1] at hkv
      by_cases h2 : 0 < kv.1 ∧ kv.1 < 4
      · rw [if_pos h2] at hkv
        injection hkv with hkv
        subst hkv
        simp
        omega
      · rw [if_neg h2] at hkv
        cases hkv
  · intro k v hk hlk
    have hkmem : (k, v) ∈ dim := mem_of_lookup_eq_some k v dim hlk
    have hk4 : k < 4 := hvalid (k, v) hkmem
    rw [hdim]
    apply lookup_filterMap_moved _ _ _ ?_ ?_ dim hlk
    · intro w
      rw [if_neg (by omega), if_pos ⟨hk, hk4⟩]
    · intro kv kv' hne hkv
      by_cases h1 : kv.1 < 0
      · omega
      · rw [if_neg h1] at hkv
        by_cases h2 : 0 < kv.1 ∧ kv.1 < 4
        · rw [if_pos h2] at hkv
          injection hkv with hkv
          subst hkv
          simp
          omega
        · rw [if_neg h2] at hkv
          cases hkv

/-- C6 witness: with overrides on segments 0, 1 and 3, the insertion
drops the key-0 entry and moves keys 1 and 3 to 2 and 4. -/
theorem insertVertex_rect_remap_witness :
    (∀ kv ∈ dimW, kv.1 < 4)
    ∧ (insertVertexOnSegment { createDefaultRoom with dimText := dimW } 0
        ⟨1250, 0⟩).innerLoop
      = [⟨0, 0⟩, ⟨1250, 0⟩, ⟨2500, 0⟩, ⟨2500, 4000⟩, ⟨0, 4000⟩]
    ∧ (insertVertexOnSegment { createDefaultRoom with dimText := dimW } 0
        ⟨1250, 0⟩).dimText.lookup 0 = none
    ∧ (insertVertexOnSegment { createDefaultRoom with dimText := dimW } 0
        ⟨1250, 0⟩).dimText.lookup 2 = some "b" := by
  have hvalid : ∀ kv ∈ dimW, kv.1 < 4 := by
    intro kv hkv
    simp [dimW] at hkv
    rcases hkv with rfl | rfl | rfl <;> omega
  refine ⟨hvalid, (insertVertex_rect_remap dimW hvalid).1,
    (insertVertex_rect_remap dimW hvalid).2.1,
    (insertVertex_rect_remap dimW hvalid).2.2.2 1 "b" (by omega) rfl⟩

/-! ## Snap width limit (C4) -/

theorem ratSqrt_6250000 : ratSqrt 6250000 = 2500 := by
  have hns : Nat.sqrt 6250000 = 2500 := by
    rw [show (6250000 : ℕ) = 2500 * 2500 by norm_num]
    exact Nat.sqrt_eq 2500
  have hns1 : Nat.sqrt 1 = 1 := by
    rw [show (1 : ℕ) = 1 * 1 by norm_num]
    exact Nat.sqrt_eq 1
  unfold ratSqrt
  rw [if_neg (by norm_num)]
  norm_num [Rat.num_ofNat, Rat.den_ofNat, hns1]
  rw [show Int.toNat 6250000 = 6250000 from rfl, hns]
  norm_num

set_option maxHeartbeats 1000000 in
theorem snapStep_skip_2500 (p : Vec2) (W tol : ℚ) (hW : 2500 < W)
    (best : Option (SnapResult × ℚ)) (i : ℕ) (hi : i < 4) :
    snapStep squareRoom.innerLoop p W tol best i = best := by
  interval_cases i <;>
  · norm_num [snapStep, squareRoom, createDefaultRoom, List.getD, ratSqrt_6250000]
    intro hle
    exfalso
    linarith

/-- C4 (amended): a segment is skipped only when it is strictly narrower
than the opening (`maxT < minT` requires `width > length`): on the
all-2500mm square room every segment is skipped for any width strictly
greater than 2500mm, so `snapToWall` and `snapDoorToWall` return null
for every candidate point and tolerance; at width exactly 2500mm the
parameter range degenerates to the single point `minT = maxT = 1/2` and
the segment is *not* skipped (see the counterexample). -/
theorem snapToWall_strict_width_null (p : Vec2) (W tol : ℚ) (hW : 2500 < W) :
    snapToWall squareRoom p W tol = none
    ∧ snapDoorToWall squareRoom p W tol = none := by
  have h0 := snapStep_skip_2500 p W tol hW none 0 (by omega)
  have h1 := snapStep_skip_2500 p W tol hW none 1 (by omega)
  have h2 := snapStep_skip_2500 p W tol hW none 2 (by omega)
  have h3 := snapStep_skip_2500 p W tol hW none 3 (by omega)
  have hfold : ([0, 1, 2, 3].foldl (snapStep squareRoom.innerLoop p W tol) none)
      = none := by
    calc ([0, 1, 2, 3].foldl (snapStep squareRoom.innerLoop p W tol) none)
        = ([1, 2, 3].foldl (snapStep squareRoom.innerLoop p W tol)
            (snapStep squareRoom.innerLoop p W tol none 0)) := rfl
      _ = ([1, 2, 3].foldl (snapStep squareRoom.innerLoop p W tol) none) := by
            rw [h0]
      _ = ([2, 3].foldl (snapStep squareRoom.innerLoop p W tol) none) := by
            rw [List.foldl_cons, h1]
      _ = ([3].foldl (snapStep squareRoom.innerLoop p W tol) none) := by
            rw [List.foldl_cons, h2]
      _ = none := by rw [List.foldl_cons, h3, List.foldl_nil]
  have hmain : snapToWall squareRoom p W tol = none := by
    show ((List.range squareRoom.innerLoop.length).foldl
        (snapStep squareRoom.innerLoop p W tol) none).map Prod.fst = none
    rw [show List.range squareRoom.innerLoop.length = [0, 1, 2, 3] from rfl, hfold]
    rfl
  exact ⟨hmain, hmain⟩

/-- C4 witness: a 3000mm opening cannot snap anywhere on the square
room. -/
theorem snapToWall_strict_width_null_witness :
    (2500 : ℚ) < 3000
    ∧ snapToWall squareRoom ⟨0, 0⟩ 3000 10 = none
    ∧ snapDoorToWall squareRoom ⟨0, 0⟩ 3000 10 = none :=
  ⟨by norm_num,
   (snapToWall_strict_width_null ⟨0, 0⟩ 3000 10 (by norm_num)).1,
   (snapToWall_strict_width_null ⟨0, 0⟩ 3000 10 (by norm_num)).2⟩

set_option maxHeartbeats 1000000 in
/-- C4 counterexample: at width exactly 2500mm on a 2500mm segment the
source does *not* return null: `minT = maxT = 1/2` fails the strict
`maxT < minT` skip test, so the opening snaps to the segment midpoint
`t = 1/2` — the claim's "minT > maxT, hence null" is false at equality. -/
theorem snapToWall_width_counterexample :
    snapToWall squareRoom ⟨1250, 0⟩ 2500 10
      = some ⟨0, 1 / 2, ⟨1250, 0⟩⟩
    ∧ snapDoorToWall squareRoom ⟨1250, 0⟩ 2500 10
      = some ⟨0, 1 / 2, ⟨1250, 0⟩⟩ := by
  have s0 : snapStep squareRoom.innerLoop ⟨1250, 0⟩ 2500 10 none 0
      = some (⟨0, 1 / 2, ⟨1250, 0⟩⟩, 0) := by
    norm_num [snapStep, squareRoom, createDefaultRoom, List.getD, ratSqrt_6250000]
  have s1 : snapStep squareRoom.innerLoop ⟨1250, 0⟩ 2500 10
      (some (⟨0, 1 / 2, ⟨1250, 0⟩⟩, 0)) 1 = some (⟨0, 1 / 2, ⟨1250, 0⟩⟩, 0) := by
    norm_num [snapStep, squareRoom, createDefaultRoom, List.getD, ratSqrt_6250000]
  have s2 : snapStep squareRoom.innerLoop ⟨1250, 0⟩ 2500 10
      (some (⟨0, 1 / 2, ⟨1250, 0⟩⟩, 0)) 2 = some (⟨0, 1 / 2, ⟨1250, 0⟩⟩, 0) := by
    norm_num [snapStep, squareRoom, createDefaultRoom, List.getD, ratSqrt_6250000]
  have s3 : snapStep squareRoom.innerLoop ⟨1250, 0⟩ 2500 10
      (some (⟨0, 1 / 2, ⟨1250, 0⟩⟩, 0)) 3 = some (⟨0, 1 / 2, ⟨1250, 0⟩⟩, 0) := by
    norm_num [snapStep, squareRoom, createDefaultRoom, List.getD, ratSqrt_6250000]
  have hfold : ([0, 1, 2, 3].foldl (snapStep squareRoom.innerLoop ⟨1250, 0⟩ 2500 10) none)
      = some (⟨0, 1 / 2, ⟨1250, 0⟩⟩, 0) := by
    calc ([0, 1, 2, 3].foldl (snapStep squareRoom.innerLoop ⟨1250, 0⟩ 2500 10) none)
        = ([1, 2, 3].foldl (snapStep squareRoom.innerLoop ⟨1250, 0⟩ 2500 10)
            (snapStep squareRoom.innerLoop ⟨1250, 0⟩ 2500 10 none 0)) := rfl
      _ = ([1, 2, 3].foldl (snapStep squareRoom.innerLoop ⟨1250, 0⟩ 2500 10)
            (some (⟨0, 1 / 2, ⟨1250, 0⟩⟩, 0))) := by rw [s0]
      _ = ([2, 3].foldl (snapStep squareRoom.innerLoop ⟨1250, 0⟩ 2500 10)
            (some (⟨0, 1 / 2, ⟨1250, 0⟩⟩, 0))) := by rw [List.foldl_cons, s1]
      _ = ([3].foldl (snapStep squareRoom.innerLoop ⟨1250, 0⟩ 2500 10)
            (some (⟨0, 1 / 2, ⟨1250, 0⟩⟩, 0))) := by rw [List.foldl_cons, s2]
      _ = some (⟨0, 1 / 2, ⟨1250, 0⟩⟩, 0) := by
            rw [List.foldl_cons, s3, List.foldl_nil]
  have hmain : snapToWall squareRoom ⟨1250, 0⟩ 2500 10
      = some ⟨0, 1 / 2, ⟨1250, 0⟩⟩ := by
    show ((List.range squareRoom.innerLoop.length).foldl
        (snapStep squareRoom.innerLoop ⟨1250, 0⟩ 2500 10) none).map Prod.fst
      = some ⟨0, 1 / 2, ⟨1250, 0⟩⟩
    rw [show List.range squareRoom.innerLoop.length = [0, 1, 2, 3] from rfl, hfold]
    rfl
  exact ⟨hmain, hmain⟩

/-! ## Hatch fill resolution priority (C8) -/

theorem getPlanZones_eq (room : RoomModel) :
    getHatchZones .plan room = [planFloorZone room, planWallZone room] := rfl

theorem planFloorZone_mem (room : RoomModel) :
    planFloorZone room ∈ getHatchZones .plan room := by
  rw [getPlanZones_eq]
  exact List.mem_cons_self _ _

theorem planWallZone_mem (room : RoomModel) :
    planWallZone room ∈ getHatchZones .plan room := by
  rw [getPlanZones_eq]
  exact List.mem_cons_of_mem _ (List.mem_cons_self _ _)

/-- `buildHatchPrimitives` with its `let`s inlined: one `filterMap`
over the zones of the view. -/
theorem buildHatchPrimitives_eq (view : ViewKind) (room : RoomModel)
    (pz : Option String) (pc : Option HatchAssignment) :
    buildHatchPrimitives view room pz pc
      = (getHatchZones view room).filterMap (fun zone =>
          (if pz = some zone.id then pc
           else match room.hatches.lookup zone.id with
             | some a => if a.patternId ≠ "none" then some a else none
             | none => if zone.isWall then some DEFAULT_WALL_HATCH else none).map
            (fun c =>
              { zoneId := zone.id, outer := zone.outer, holes := zone.holes,
                patternId := c.patternId, color := c.color, bgColor := c.bgColor,
                spacingMm := c.spacingMm, lineWidthMm := c.lineWidthMm,
                angleDeg := c.angleDeg,
                opacity := if pz = some zone.id then min c.opacity (1 / 2)
                  else c.opacity })) := rfl

/-- If a zone's fill resolves to `some c` (the source's inline
resolution chain), `buildHatchPrimitives` emits a primitive for that
zone carrying `c`'s pattern id. -/
theorem buildHatch_emits (view : ViewKind) (room : RoomModel)
    (pz : Option String) (pc : Option HatchAssignment)
    (z : HatchZone) (hz : z ∈ getHatchZones view room) (c : HatchAssignment)
    (hcfg : (if pz = some z.id then pc
        else match room.hatches.lookup z.id with
          | some a => if a.patternId ≠ "none" then some a else none
          | none => if z.isWall then some DEFAULT_WALL_HATCH else none)
      = some c) :
    ∃ pr ∈ buildHatchPrimitives view room pz pc,
      pr.zoneId = z.id ∧ pr.patternId = c.patternId := by
  rw [buildHatchPrimitives_eq]
  exact ⟨_, List.mem_filterMap.mpr ⟨z, hz, by rw [hcfg]; rfl⟩, rfl, rfl⟩

/-- Every emitted hatch primitive comes from some zone whose inline
resolution chain produced its fill config. -/
theorem buildHatch_mem_resolution (view : ViewKind) (room : RoomModel)
    (pz : Option String) (pc : Option HatchAssignment) (pr : HatchFillPrim)
    (h : pr ∈ buildHatchPrimitives view room pz pc) :
    ∃ z ∈ getHatchZones view room, ∃ c : HatchAssignment,
      (if pz = some z.id then pc
        else match room.hatches.lookup z.id with
          | some a => if a.patternId ≠ "none" then some a else none
          | none => if z.isWall then some DEFAULT_WALL_HATCH else none)
      = some c
      ∧ pr.zoneId = z.id ∧ pr.patternId = c.patternId := by
  rw [buildHatchPrimitives_eq] at h
  obtain ⟨z, hz, hFz⟩ := List.mem_filterMap.mp h
  simp only [Option.map_eq_some'] at hFz
  obtain ⟨c, hc, hpr⟩ := hFz
  refine ⟨z, hz, c, hc, ?_, ?_⟩
  · rw [← hpr]
  · rw [← hpr]

/-- C8 (amended): for every view, room and zone, `buildHatchPrimitives`
resolves the zone's fill in this priority order: an explicit preview
assignment first (a previewed zone with no preview config emits
nothing), then a user-assigned `hatches` entry keyed by the derived
zone id (pattern id "none" suppressing the fill), then a wall zone's
fixed default, then no fill — in particular a user assignment on a wall
zone overrides the fixed wall default. -/
theorem hatch_priority_amended (view : ViewKind) (room : RoomModel)
    (pz : Option String) (pc : Option HatchAssignment) :
    (∀ z ∈ getHatchZones view room, ∀ c : HatchAssignment,
      pz = some z.id → pc = some c →
      (∃ pr ∈ buildHatchPrimitives view room pz pc,
        pr.zoneId = z.id ∧ pr.patternId = c.patternId)
      ∧ ∀ pr ∈ buildHatchPrimitives view room pz pc,
          pr.zoneId = z.id → pr.patternId = c.patternId)
    ∧ (∀ zid : String, pz = some zid → pc = none →
      ∀ pr ∈ buildHatchPrimitives view room pz pc, pr.zoneId ≠ zid)
    ∧ (∀ z ∈ getHatchZones view room, ∀ a : HatchAssignment,
      ¬ pz = some z.id → room.hatches.lookup z.id = some a →
      a.patternId ≠ "none" →
      (∃ pr ∈ buildHatchPrimitives view room pz pc,
        pr.zoneId = z.id ∧ pr.patternId = a.patternId)
      ∧ ∀ pr ∈ buildHatchPrimitives view room pz pc,
          pr.zoneId = z.id → pr.patternId = a.patternId)
    ∧ (∀ (zid : String) (a : HatchAssignment), ¬ pz = some zid →
      room.hatches.lookup zid = some a → a.patternId = "none" →
      ∀ pr ∈ buildHatchPrimitives view room pz pc, pr.zoneId ≠ zid)
    ∧ (∀ z ∈ getHatchZones view room, ¬ pz = some z.id →
      room.hatches.lookup z.id = none → z.isWall = true →
      (∃ pr ∈ buildHatchPrimitives view room pz pc,
        pr.zoneId = z.id ∧ pr.patternId = DEFAULT_WALL_HATCH.patternId)
      ∧ ∀ pr ∈ buildHatchPrimitives view room pz pc,
          pr.zoneId = z.id → pr.patternId = DEFAULT_WALL_HATCH.patternId)
    ∧ (∀ zid : String, ¬ pz = some zid → room.hatches.lookup zid = none →
      (∀ z ∈ getHatchZones view room, z.id = zid → z.isWall = false) →
      ∀ pr ∈ buildHatchPrimitives view room pz pc, pr.zoneId ≠ zid) := by
  refine ⟨?_, ?_, ?_, ?_, ?_, ?_⟩
  · -- preview precedence: an active preview beats everything
    intro z hz c hpz hpc
    constructor
    · exact buildHatch_emits view room pz pc z hz c (by rw [if_pos hpz]; exact hpc)
    · intro pr hpr hid
      obtain ⟨z', hz', c', hc', hid', hpat'⟩ :=
        buildHatch_mem_resolution view room pz pc pr hpr
      have hzz : z'.id = z.id := hid'.symm.trans hid
      rw [hzz, if_pos hpz, hpc] at hc'
      rw [hpat', Option.some.inj hc']
  · -- a previewed zone with no preview config emits nothing
    intro zid hpz hpc pr hpr hid
    obtain ⟨z', hz', c', hc', hid', hpat'⟩ :=
      buildHatch_mem_resolution view room pz pc pr hpr
    have hzz : z'.id = zid := hid'.symm.trans hid
    rw [hzz, if_pos hpz, hpc] at hc'
    cases hc'
  · -- user assignment (pattern id not "none") beats the wall default
    intro z hz a hnp hlk ha
    constructor
    · refine buildHatch_emits view room pz pc z hz a ?_
      rw [if_neg hnp]
      simp only [hlk]
      rw [if_pos ha]
    · intro pr hpr hid
      obtain ⟨z', hz', c', hc', hid', hpat'⟩ :=
        buildHatch_mem_resolution view room pz pc pr hpr
      have hzz : z'.id = z.id := hid'.symm.trans hid
      rw [hzz, if_neg hnp] at hc'
      simp only [hlk] at hc'
      rw [if_pos ha] at hc'
      rw [hpat', Option.some.inj hc']
  · -- a user entry with pattern id "none" suppresses the zone's fill
    intro zid a hnp hlk ha pr hpr hid
    obtain ⟨z', hz', c', hc', hid', hpat'⟩ :=
      buildHatch_mem_resolution view room pz pc pr hpr
    have hzz : z'.id = zid := hid'.symm.trans hid
    rw [hzz, if_neg hnp] at hc'
    simp only [hlk] at hc'
    rw [if_neg (by simp [ha])] at hc'
    cases hc'
  · -- unassigned wall zones fall back to the fixed default
    intro z hz hnp hlk hw
    constructor
    · refine buildHatch_emits view room pz pc z hz DEFAULT_WALL_HATCH ?_
      rw [if_neg hnp]
      simp only [hlk]
      rw [if_pos hw]
    · intro pr hpr hid
      obtain ⟨z', hz', c', hc', hid', hpat'⟩ :=
        buildHatch_mem_resolution view room pz pc pr hpr
      have hzz : z'.id = z.id := hid'.symm.trans hid
      rw [hzz, if_neg hnp] at hc'
      simp only [hlk] at hc'
      by_cases hw' : z'.isWall = true
      · rw [if_pos hw'] at hc'
        rw [hpat', Option.some.inj hc']
      · rw [if_neg hw'] at hc'
        cases hc'
  · -- unassigned non-wall zones get no fill at all
    intro zid hnp hlk hnw pr hpr hid
    obtain ⟨z', hz', c', hc', hid', hpat'⟩ :=
      buildHatch_mem_resolution view room pz pc pr hpr
    have hzz : z'.id = zid := hid'.symm.trans hid
    rw [hzz, if_neg hnp] at hc'
    simp only [hlk] at hc'
    rw [if_neg (by simp [hnw z' hz' hzz])] at hc'
    cases hc'

/-- C8 witness: the user "solid" assignment on the plan wall zone wins
over the default; the unassigned wall zone of the default room falls
back to the default; a previewed floor zone fills with the preview
config; and the unassigned non-wall floor zone emits no fill. -/
theorem hatch_priority_amended_witness :
    hatchRoom.hatches.lookup "plan:wall" = some userWallAssign
    ∧ userWallAssign.patternId ≠ "none"
    ∧ (∃ pr ∈ buildHatchPrimitives .plan hatchRoom none none,
        pr.zoneId = (planWallZone hatchRoom).id
        ∧ pr.patternId = userWallAssign.patternId)
    ∧ (∃ pr ∈ buildHatchPrimitives .plan createDefaultRoom none none,
        pr.zoneId = (planWallZone createDefaultRoom).id
        ∧ pr.patternId = DEFAULT_WALL_HATCH.patternId)
    ∧ (∃ pr ∈ buildHatchPrimitives .plan createDefaultRoom
          (some "plan:floor") (some userWallAssign),
        pr.zoneId = (planFloorZone createDefaultRoom).id
        ∧ pr.patternId = userWallAssign.patternId)
    ∧ (∀ pr ∈ buildHatchPrimitives .plan createDefaultRoom none none,
        pr.zoneId ≠ "plan:floor") := by
  have h1 : hatchRoom.hatches.lookup "plan:wall" = some userWallAssign := rfl
  have h2 : userWallAssign.patternId ≠ "none" := by simp [userWallAssign]
  refine ⟨h1, h2, ?_, ?_, ?_, ?_⟩
  · exact ((hatch_priority_amended .plan hatchRoom none none).2.2.1
      (planWallZone hatchRoom) (planWallZone_mem hatchRoom) userWallAssign
      (by simp) h1 h2).1
  · exact ((hatch_priority_amended .plan createDefaultRoom none none).2.2.2.2.1
      (planWallZone createDefaultRoom) (planWallZone_mem createDefaultRoom)
      (by simp) rfl rfl).1
  · exact ((hatch_priority_amended .plan createDefaultRoom
      (some "plan:floor") (some userWallAssign)).1
      (planFloorZone createDefaultRoom) (planFloorZone_mem createDefaultRoom)
      userWallAssign rfl rfl).1
  · intro pr hpr
    refine (hatch_priority_amended .plan createDefaultRoom none none).2.2.2.2.2
      "plan:floor" (by simp) rfl ?_ pr hpr
    intro z hz hid
    rw [getPlanZones_eq] at hz
    simp only [List.mem_cons, List.not_mem_nil, or_false] at hz
    rcases hz with rfl | rfl
    · rfl
    · simp [planWallZone] at hid

/-- C8 counterexample: with the user "solid" assignment on the wall zone
and no preview, the emitted fill uses the user's pattern id, not the
fixed wall default "diagonal-right" — refuting the claimed
default-over-assignment priority. -/
theorem hatch_priority_counterexample :
    ((buildHatchPrimitives .plan hatchRoom none none).filter
        (fun pr => pr.zoneId == "plan:wall")).map (fun pr => pr.patternId)
      = ["solid"]
    ∧ ("solid" : String) ≠ DEFAULT_WALL_HATCH.patternId := by
  constructor
  · simp only [buildHatchPrimitives, getHatchZones, getPlanZones,
      List.filterMap_cons, List.filterMap_nil]
    simp [hatchRoom, userWallAssign, createDefaultRoom, List.lookup]
  · simp [DEFAULT_WALL_HATCH]
